import Mathlib

/-!
Verification of the module and name-resolution layer declared in
`include/swift/AST/Module.h`.

The header defines the `Module` class hierarchy (`TranslationUnit`,
`BuiltinModule`, `LoadedModule`), the compilation-stage state machine
(`ASTStage_t`), name-lookup option bitmasks (`NameLookupOptions`),
conformance lookup results (`ConformanceKind`), access paths and the
import-graph walker interface.  Inline member-function bodies
(constructors, `getImports`, `getComponent`, the setters, the
`DenseMapInfo` specialization) are embedded directly from the source.
Functions that the header only declares (`isSameAccessPath`,
`lookupInfixOperator` and friends, `forAllVisibleModules`,
`lookupQualified`, `lookupConformance`) are modelled from the
specification, as marked in their doc comments.

Pointers are modelled as `Option Nat` (`none` = null), identifiers as
`String`, source locations as `Nat`, and `assert`-guarded operations as
`Option`-returning functions (`none` = assertion failure).
-/

namespace SwiftModule

/-- Embeds `enum class ModuleKind` (Module.h lines 68-73). -/
inductive ModuleKind where
  | TranslationUnit
  | BuiltinModule
  | SerializedModule
  | ClangModule
deriving DecidableEq, Repr

/-- Embeds `enum ASTStage_t` (Module.h lines 143-152): the phases of
parsing and semantic analysis completed for the AST. -/
inductive ASTStage where
  | Parsing
  | Parsed
  | NameBound
  | TypeChecked
deriving DecidableEq, Repr

/-- Numeric value of each stage, as fixed by C++ enumerator ordering
(`Parsing` = 0 through `TypeChecked` = 3); `ASTStage >= Parsed`
comparisons in the source compare these numbers. -/
def ASTStage.toNat : ASTStage → Nat
  | .Parsing => 0
  | .Parsed => 1
  | .NameBound => 2
  | .TypeChecked => 3

/-- An element of an access path: `std::pair<Identifier, SourceLoc>`
(Module.h line 163). -/
abbrev AccessPathElem := String × Nat

/-- `Module::AccessPathTy` (Module.h line 163). -/
abbrev AccessPathTy := List AccessPathElem

/-- `Module::ImportedModule`: `std::pair<AccessPathTy, Module*>`
(Module.h line 164), the target module given by identity (arena id). -/
abbrev ImportedModule := AccessPathTy × Nat

/-- Embeds the state of the base class `Module` (Module.h lines
127-158): kind, lookup-cache pimpl pointer, owning component pointer,
name, and AST stage. -/
structure Module where
  kind : ModuleKind
  lookupCachePimpl : Option Nat
  comp : Option Nat
  name : String
  stage : ASTStage
deriving DecidableEq, Repr

/-- Embeds the protected base constructor `Module::Module` (Module.h
lines 155-160): initializes the stage to `Parsing`, the cache pimpl to
null, and asserts `Comp != nullptr || Kind == ModuleKind::BuiltinModule`
(`none` models the assertion firing). -/
def mkModule (kind : ModuleKind) (name : String) (comp : Option Nat) :
    Option Module :=
  if comp = none ∧ kind ≠ ModuleKind.BuiltinModule then none
  else some { kind := kind, lookupCachePimpl := none, comp := comp,
              name := name, stage := ASTStage.Parsing }

/-- Embeds `Module::getComponent` (Module.h lines 168-171): asserts
`Comp` is non-null ("fetching component for the builtin module") and
returns it; `none` models the assertion firing. -/
def Module.getComponent (m : Module) : Option Nat :=
  m.comp

/-- Embeds `TranslationUnit::TUKind` (Module.h lines 381-386). -/
inductive TUKind where
  | Library
  | Main
  | REPL
  | SIL
deriving DecidableEq, Repr

/-- Embeds the fields of `class TranslationUnit` (Module.h lines
363-408): the base-class state plus the import list (with re-export
flags), link libraries, import buffer id (`-1` = unset), file kind, and
top-level declarations. -/
structure TranslationUnit where
  toModule : Module
  Imports : List (ImportedModule × Bool)
  LinkLibraries : List Nat
  ImportBufferID : Int
  tuKind : TUKind
  HasBuiltinModuleAccess : Bool
  Decls : List Nat
deriving DecidableEq, Repr

/-- Embeds the `TranslationUnit` constructor (Module.h lines 410-412):
delegates to the base constructor with `ModuleKind::TranslationUnit`
and leaves `Imports`/`LinkLibraries` empty and `ImportBufferID` at -1
(their in-class initializers). -/
def mkTranslationUnit (name : String) (comp : Option Nat) (k : TUKind) :
    Option TranslationUnit :=
  (mkModule ModuleKind.TranslationUnit name comp).map fun m =>
    { toModule := m, Imports := [], LinkLibraries := [],
      ImportBufferID := -1, tuKind := k,
      HasBuiltinModuleAccess := false, Decls := [] }

/-- Embeds the `BuiltinModule` constructor (Module.h lines 475-479):
base constructor with a null component, then `ASTStage = TypeChecked`
("The Builtin module is always well formed"). -/
def mkBuiltinModule (name : String) : Option Module :=
  (mkModule ModuleKind.BuiltinModule name none).map fun m =>
    { m with stage := ASTStage.TypeChecked }

/-- Embeds the state of `class LoadedModule` (Module.h lines 493-511):
the base-class state plus the debug module name; the loader is stored
in the base`s `lookupCachePimpl` field. -/
structure LoadedModule where
  toModule : Module
  DebugModuleName : String
deriving DecidableEq, Repr

/-- Embeds the `LoadedModule` constructor (Module.h lines 497-505):
base constructor, then `ASTStage = TypeChecked` ("Loaded modules are
always well-formed") and `LookupCachePimpl = &owner`. -/
def mkLoadedModule (kind : ModuleKind) (name : String)
    (debugModuleName : String) (comp : Option Nat) (owner : Nat) :
    Option LoadedModule :=
  (mkModule kind name comp).map fun m =>
    { toModule := { m with stage := ASTStage.TypeChecked,
                           lookupCachePimpl := some owner },
      DebugModuleName := debugModuleName }

/-- Embeds `LoadedModule::getOwner` (Module.h lines 507-509): the
module loader stashed in `LookupCachePimpl`. -/
def LoadedModule.getOwner (lm : LoadedModule) : Option Nat :=
  lm.toModule.lookupCachePimpl

/-- Embeds `TranslationUnit::getImports` (Module.h lines 414-417):
asserts `ASTStage >= Parsed || Kind == SIL` and returns the stored
imports; `none` models the assertion firing. -/
def TranslationUnit.getImports (tu : TranslationUnit) :
    Option (List (ImportedModule × Bool)) :=
  if ASTStage.Parsed.toNat ≤ tu.toModule.stage.toNat ∨ tu.tuKind = TUKind.SIL
  then some tu.Imports
  else none

/-- Embeds `TranslationUnit::setImports` (Module.h lines 418-420): a
plain assignment `Imports = IM` with no assertion guarding it. -/
def TranslationUnit.setImports (tu : TranslationUnit)
    (im : List (ImportedModule × Bool)) : TranslationUnit :=
  { tu with Imports := im }

/-- Embeds `TranslationUnit::setLinkLibraries` (Module.h lines
422-425): asserts `LinkLibraries.empty()` ("link libraries already
set") before assigning; `none` models the assertion firing. -/
def TranslationUnit.setLinkLibraries (tu : TranslationUnit)
    (libs : List Nat) : Option TranslationUnit :=
  if tu.LinkLibraries = [] then some { tu with LinkLibraries := libs }
  else none

/-- Embeds `TranslationUnit::getLinkLibraries` (Module.h lines
426-428). -/
def TranslationUnit.getLinkLibraries (tu : TranslationUnit) : List Nat :=
  tu.LinkLibraries

/-- Embeds `TranslationUnit::getImportBufferID` (Module.h line 437). -/
def TranslationUnit.getImportBufferID (tu : TranslationUnit) : Int :=
  tu.ImportBufferID

/-- Two's-complement value obtained when a 32-bit `unsigned` quantity
is stored into a 32-bit `int`, as in the narrowing assignment
`ImportBufferID = BufID` (Module.h line 440): the value is reduced
mod `2 ^ 32` and values of `2 ^ 31` and above wrap negative. -/
def int32OfUInt32 (n : Nat) : Int :=
  if n % 2 ^ 32 < 2 ^ 31 then ((n % 2 ^ 32 : Nat) : Int)
  else ((n % 2 ^ 32 : Nat) : Int) - 2 ^ 32

/-- Embeds `TranslationUnit::setImportBufferID` (Module.h lines
438-441): asserts `ImportBufferID == -1` ("Already set!") before
storing the unsigned buffer id into the signed 32-bit field through
the narrowing conversion; `none` models the assertion firing. -/
def TranslationUnit.setImportBufferID (tu : TranslationUnit)
    (bufID : Nat) : Option TranslationUnit :=
  if tu.ImportBufferID = -1 then
    some { tu with ImportBufferID := int32OfUInt32 bufID }
  else none

/-- Embeds the `NameLookupOptions` constants (Module.h lines 76-107)
as a bitmask over `Nat`: `NL_VisitSupertypes = 0x01`. -/
def NL_VisitSupertypes : Nat := 0x01

/-- `NL_ProtocolMembers = 0x02` (Module.h line 82). -/
def NL_ProtocolMembers : Nat := 0x02

/-- `NL_RemoveNonVisible = 0x04` (Module.h line 85). -/
def NL_RemoveNonVisible : Nat := 0x04

/-- `NL_RemoveOverridden = 0x08` (Module.h line 88). -/
def NL_RemoveOverridden : Nat := 0x08

/-- `NL_DynamicLookup = 0x10` (Module.h line 92). -/
def NL_DynamicLookup : Nat := 0x10

/-- `NL_QualifiedDefault = NL_VisitSupertypes | NL_RemoveNonVisible |
NL_RemoveOverridden` (Module.h lines 98-99). -/
def NL_QualifiedDefault : Nat :=
  NL_VisitSupertypes ||| NL_RemoveNonVisible ||| NL_RemoveOverridden

/-- `NL_UnqualifiedDefault = NL_VisitSupertypes | NL_RemoveNonVisible |
NL_RemoveOverridden` (Module.h lines 102-103). -/
def NL_UnqualifiedDefault : Nat :=
  NL_VisitSupertypes ||| NL_RemoveNonVisible ||| NL_RemoveOverridden

/-- `NL_Constructor = NL_RemoveNonVisible` (Module.h line 106). -/
def NL_Constructor : Nat := NL_RemoveNonVisible

/-- Embeds `enum class ConformanceKind` (Module.h lines 111-119). -/
inductive ConformanceKind where
  | DoesNotConform
  | Conforms
  | UncheckedConforms
deriving DecidableEq, Repr

/-- Modelled from the spec: the body of `Module::isSameAccessPath`
(declared at Module.h line 336) is not in the header.  Per the header
doc ("Returns true if the two access paths contain the same chain of
identifiers.  Source locations are ignored here.") it compares lengths
and then the identifier of each corresponding element. -/
def isSameAccessPath (lhs rhs : AccessPathTy) : Bool :=
  lhs.length == rhs.length &&
    (List.zip lhs rhs).all fun pr => pr.1.1 == pr.2.1

/-- Embeds `DenseMapInfo<swift::Module::ImportedModule>::isEqual`
(Module.h lines 572-576): module pointers must be identical and the
access paths must agree by `isSameAccessPath`. -/
def importedModuleIsEqual (lhs rhs : ImportedModule) : Bool :=
  lhs.2 == rhs.2 && isSameAccessPath lhs.1 rhs.1

/-- An import graph over a finite universe of modules: `mods` is the
universe (module identities) and `edges m` gives the re-export edges of
module `m`, each carrying the access path of the import. -/
structure ImportGraph where
  mods : List Nat
  edges : Nat → List ImportedModule

/-- Modelled from the spec: the body of `Module::forAllVisibleModules`
(declared at Module.h lines 302-303) is not in the header.  Per the
spec, it is a depth-first traversal over re-export edges that keeps a
visited set keyed by module identity, invokes the visitor on each
newly reached module, and aborts as soon as the visitor returns false.
`pending` is the DFS worklist, `visited` the modules already visited.
Returns (aborted?, the list of imports the visitor was invoked on, in
invocation order). -/
def visitDFS (g : ImportGraph) (fn : ImportedModule → Bool) :
    List ImportedModule → List Nat → Bool × List ImportedModule
  | [], _ => (false, [])
  | imp :: rest, visited =>
    if imp.2 ∈ visited ∨ imp.2 ∉ g.mods then
      visitDFS g fn rest visited
    else if fn imp then
      let r := visitDFS g fn (g.edges imp.2 ++ rest) (imp.2 :: visited)
      (r.1, imp :: r.2)
    else
      (true, [imp])
termination_by pending visited =>
  ((g.mods.filter (fun m => decide (m ∉ visited))).length, pending.length)
decreasing_by
  · exact Prod.Lex.right _ (Nat.lt_succ_self _)
  · apply Prod.Lex.left
    rename_i h _
    push_neg at h
    have key : ∀ (l : List Nat) (m : Nat) (vis : List Nat), m ∈ l → m ∉ vis →
        (l.filter (fun x => decide (x ∉ m :: vis))).length <
          (l.filter (fun x => decide (x ∉ vis))).length := by
      intro l m vis hin hnv
      induction l with
      | nil => cases hin
      | cons a tl ih =>
        simp only [List.filter_cons]
        by_cases ham : a = m
        · subst ham
          have h1 : (decide (a ∉ a :: vis)) = false := by simp
          have h2 : (decide (a ∉ vis)) = true := by simpa using hnv
          rw [h1, h2]
          simp only [Bool.false_eq_true, if_false, if_true, List.length_cons]
          have hsub : List.Sublist
              (tl.filter (fun x => decide (x ∉ a :: vis)))
              (tl.filter (fun x => decide (x ∉ vis))) := by
            apply List.monotone_filter_right
            intro x hx
            simp only [decide_eq_true_eq, List.mem_cons, not_or] at *
            exact hx.2
          exact Nat.lt_succ_of_le hsub.length_le
        · have hin' : m ∈ tl := by
            rcases List.mem_cons.mp hin with hh | hh
            · exact absurd hh.symm ham
            · exact hh
          have hlt := ih hin'
          by_cases hav : a ∈ vis
          · have h1 : (decide (a ∉ m :: vis)) = false := by simp [hav]
            have h2 : (decide (a ∉ vis)) = false := by simp [hav]
            rw [h1, h2]
            simp only [Bool.false_eq_true, if_false]
            exact hlt
          · have h1 : (decide (a ∉ m :: vis)) = true := by simp [hav, ham]
            have h2 : (decide (a ∉ vis)) = true := by simp [hav]
            rw [h1, h2]
            simp only [if_true, List.length_cons]
            exact Nat.succ_lt_succ hlt
    exact key g.mods imp.2 visited h.2 h.1

/-- Modelled from the spec: `Module::forAllVisibleModules` (declared
at Module.h lines 302-303).  When `topLevelAccessPath` is present the
starting module itself is visited first under that path; otherwise the
traversal starts from the module's own re-export edges.  Returns
(aborted?, imports visited in order). -/
def forAllVisibleModules (g : ImportGraph) (start : Nat)
    (topLevelAccessPath : Option AccessPathTy)
    (fn : ImportedModule → Bool) : Bool × List ImportedModule :=
  match topLevelAccessPath with
  | some p => visitDFS g fn [(p, start)] []
  | none => visitDFS g fn (g.edges start) []

/-- The modules visible from `m`, keyed by identity and including `m`
itself first: the trace of the walker with an always-continue visitor
and an empty top-level access path. -/
def reachableModules (g : ImportGraph) (m : Nat) : List Nat :=
  (forAllVisibleModules g m (some []) (fun _ => true)).2.map Prod.snd

/-- A module universe equipped with per-module operator tables of the
three fixities, mapping an operator name to the declaration (by
identity) in that module's table, as in the `InfixOperators` /
`PrefixOperators` / `PostfixOperators` maps of `TranslationUnit`
(Module.h lines 395-408). -/
structure OpWorld where
  graph : ImportGraph
  infixOperators : Nat → String → Option Nat
  prefixOperators : Nat → String → Option Nat
  postfixOperators : Nat → String → Option Nat

/-- The operator declarations named `name` found in the tables of the
module itself and of every module visible from it. -/
def opCandidates (g : ImportGraph) (table : Nat → String → Option Nat)
    (m : Nat) (name : String) : List Nat :=
  (reachableModules g m).filterMap fun mm => table mm name

/-- Modelled from the spec: the shared search of
`Module::lookupInfixOperator` / `lookupPrefixOperator` /
`lookupPostfixOperator` (declared at Module.h lines 220-236).  The
module's own table of the given fixity is searched, then every module
reachable through the import-graph walker; `some none` means no
operator declaration was found anywhere, `some (some d)` the unique
declaration found, and `none` ("Nothing") that conflicting importing
operator declarations made the name unresolvable. -/
def lookupOperatorAux (g : ImportGraph)
    (table : Nat → String → Option Nat) (m : Nat) (name : String) :
    Option (Option Nat) :=
  match (opCandidates g table m name).dedup with
  | [] => some none
  | [d] => some (some d)
  | _ :: _ :: _ => none

/-- `Module::lookupInfixOperator` (Module.h lines 220-221). -/
def lookupInfixOperator (w : OpWorld) (m : Nat) (name : String) :
    Option (Option Nat) :=
  lookupOperatorAux w.graph w.infixOperators m name

/-- `Module::lookupPrefixOperator` (Module.h lines 228-229). -/
def lookupPrefixOperator (w : OpWorld) (m : Nat) (name : String) :
    Option (Option Nat) :=
  lookupOperatorAux w.graph w.prefixOperators m name

/-- `Module::lookupPostfixOperator` (Module.h lines 235-236). -/
def lookupPostfixOperator (w : OpWorld) (m : Nat) (name : String) :
    Option (Option Nat) :=
  lookupOperatorAux w.graph w.postfixOperators m name

/-- A value declaration as seen by qualified lookup: its name, its
signature (two declarations are overriding-equivalent when both name
and signature agree), its visibility from the calling context, and its
identity. -/
structure QDecl where
  name : String
  sig : String
  visible : Bool
  ident : Nat
deriving DecidableEq, Repr

/-- Overriding-equivalence: identical name and identical signature. -/
def sameSignature (d1 d2 : QDecl) : Bool :=
  d1.name == d2.name && d1.sig == d2.sig

/-- The type universe qualified lookup runs over: per-type
directly-declared members (including extensions), the supertype chain
in most-derived-to-least-derived order, members contributed by
protocols the type conforms to, the class-member index backing dynamic
lookup, and which types are the special `DynamicLookup` existential. -/
structure TypeWorld where
  members : Nat → List QDecl
  superChain : Nat → List Nat
  protocolMembers : Nat → List QDecl
  allClassMembers : List QDecl
  isDynamicLookupExistential : Nat → Bool

/-- Removes declarations shadowed by a more-derived override of
identical signature, keeping only the most-derived one; the input is
in most-derived-first traversal order, so the first declaration of
each signature is kept. -/
def removeOverridden : List QDecl → List QDecl
  | [] => []
  | d :: ds =>
    d :: removeOverridden (ds.filter fun d2 => !(sameSignature d d2))
termination_by l => l.length
decreasing_by
  exact Nat.lt_succ_of_le (List.length_filter_le _ _)

/-- Modelled from the spec: `Module::lookupQualified` (declared at
Module.h lines 211-213).  Searches the type's directly-declared
members, then (under `NL_VisitSupertypes`) the supertype chain, then
(under `NL_ProtocolMembers`) protocol-contributed members; under
`NL_DynamicLookup` on the special existential the search is instead
broadened to members of all known classes.  `NL_RemoveNonVisible`
drops declarations not visible from the calling context and
`NL_RemoveOverridden` drops overridden declarations.  Returns whether
anything survived filtering, plus the filtered set. -/
def lookupQualified (w : TypeWorld) (t : Nat) (name : String)
    (options : Nat) : Bool × List QDecl :=
  let gathered :=
    if options &&& NL_DynamicLookup ≠ 0 ∧ w.isDynamicLookupExistential t
    then
      w.allClassMembers.filter fun d => d.name == name
    else
      ((w.members t).filter fun d => d.name == name) ++
      (if options &&& NL_VisitSupertypes ≠ 0 then
        (w.superChain t).flatMap fun ty =>
          (w.members ty).filter fun d => d.name == name
       else []) ++
      (if options &&& NL_ProtocolMembers ≠ 0 then
        (w.protocolMembers t).filter fun d => d.name == name
       else [])
  let afterVisible :=
    if options &&& NL_RemoveNonVisible ≠ 0 then
      gathered.filter fun d => d.visible
    else gathered
  let final :=
    if options &&& NL_RemoveOverridden ≠ 0 then removeOverridden afterVisible
    else afterVisible
  (!final.isEmpty, final)

/-- The checking state of one explicitly declared conformance: fully
checked with its conformance structure, still being checked with an
in-progress conformance structure, or declared with no conformance
structure built yet. -/
inductive ConfState where
  | checked (c : Nat)
  | inProgress (c : Nat)
  | intentOnly
deriving DecidableEq, Repr

/-- One explicitly declared conformance of a type to a protocol. -/
structure ConfEntry where
  ty : Nat
  proto : Nat
  state : ConfState
deriving DecidableEq, Repr

/-- Modelled from the spec: `Module::lookupConformance` (declared at
Module.h lines 271-272).  Searches only the explicitly declared
conformances; returns the `ConformanceKind` together with the
conformance pointer of the `LookupConformanceResult` pair (`none` =
null pointer).  A missing declaration yields `DoesNotConform`; a
declared but not yet checked conformance yields `UncheckedConforms`
with the in-progress conformance if one exists; a checked conformance
yields `Conforms` with its conformance structure. -/
def lookupConformance (entries : List ConfEntry) (t p : Nat) :
    ConformanceKind × Option Nat :=
  match entries.find? (fun e => e.ty == t && e.proto == p) with
  | none => (ConformanceKind.DoesNotConform, none)
  | some e =>
    match e.state with
    | ConfState.checked c => (ConformanceKind.Conforms, some c)
    | ConfState.inProgress c => (ConformanceKind.UncheckedConforms, some c)
    | ConfState.intentOnly => (ConformanceKind.UncheckedConforms, none)

/-- A translation unit as produced by `mkTranslationUnit "M" (some 0)
TUKind.Main`, used as a concrete evaluation point. -/
def tuEx : TranslationUnit :=
  { toModule := { kind := ModuleKind.TranslationUnit,
                  lookupCachePimpl := none, comp := some 0,
                  name := "M", stage := ASTStage.Parsing },
    Imports := [], LinkLibraries := [], ImportBufferID := -1,
    tuKind := TUKind.Main, HasBuiltinModuleAccess := false, Decls := [] }

/-- A translation unit parsed from a `.sil` file, still at stage
`Parsing`, used as a concrete evaluation point. -/
def tuSILEx : TranslationUnit :=
  { toModule := { kind := ModuleKind.TranslationUnit,
                  lookupCachePimpl := none, comp := some 1,
                  name := "sil", stage := ASTStage.Parsing },
    Imports := [], LinkLibraries := [], ImportBufferID := -1,
    tuKind := TUKind.SIL, HasBuiltinModuleAccess := false, Decls := [] }

/-- The builtin module as produced by `mkBuiltinModule "Builtin"`. -/
def bmEx : Module :=
  { kind := ModuleKind.BuiltinModule, lookupCachePimpl := none,
    comp := none, name := "Builtin", stage := ASTStage.TypeChecked }

/-- A loaded module as produced by `mkLoadedModule
ModuleKind.SerializedModule "Ser" "dbg" (some 3) 7`. -/
def lmEx : LoadedModule :=
  { toModule := { kind := ModuleKind.SerializedModule,
                  lookupCachePimpl := some 7, comp := some 3,
                  name := "Ser", stage := ASTStage.TypeChecked },
    DebugModuleName := "dbg" }

/-- The state of `tuEx` after a first `setLinkLibraries [4]`. -/
def tuLibsEx : TranslationUnit := { tuEx with LinkLibraries := [4] }

/-- The state of `tuEx` after a first `setImportBufferID 9`. -/
def tuBufEx : TranslationUnit :=
  { tuEx with ImportBufferID := int32OfUInt32 9 }

/-- A concrete conformance table: type 1 conforms to protocol 9 with
a checked conformance, type 2 with an in-progress conformance, and
type 3 only declares the intent to conform. -/
def confEx : List ConfEntry :=
  [⟨1, 9, ConfState.checked 11⟩, ⟨2, 9, ConfState.inProgress 12⟩,
    ⟨3, 9, ConfState.intentOnly⟩]

/-- A concrete import graph in which modules 0 and 1 mutually
re-export each other, each under a one-identifier access path. -/
def gEx : ImportGraph :=
  { mods := [0, 1],
    edges := fun m =>
      if m = 0 then [([("B", 0)], 1)]
      else if m = 1 then [([("A", 0)], 0)] else [] }

/-- A concrete type world: type 0 directly declares a member `m` with
identity 100, its supertype 1 declares an overriding-equivalent member
`m` with identity 200, both visible. -/
def qwEx : TypeWorld :=
  { members := fun ty =>
      if ty = 0 then [⟨"m", "()", true, 100⟩]
      else if ty = 1 then [⟨"m", "()", true, 200⟩] else [],
    superChain := fun ty => if ty = 0 then [1] else [],
    protocolMembers := fun _ => [],
    allClassMembers := [],
    isDynamicLookupExistential := fun _ => false }

/-- A concrete operator world: module 2 re-exports modules 0 and 1,
which declare distinct infix operators both named `+` (identities 10
and 20); no prefix or postfix operators exist anywhere. -/
def owEx : OpWorld :=
  { graph := { mods := [0, 1, 2],
               edges := fun m =>
                 if m = 2 then [([("A", 0)], 0), ([("B", 0)], 1)]
                 else [] },
    infixOperators := fun m nm =>
      if nm = "+" then
        if m = 0 then some 10 else if m = 1 then some 20 else none
      else none,
    prefixOperators := fun _ _ => none,
    postfixOperators := fun _ _ => none }

/-- Access-path equality holds exactly when the identifier sequences
agree, the source-location components being ignored. -/
theorem isSameAccessPath_iff (lhs rhs : AccessPathTy) :
    isSameAccessPath lhs rhs = true ↔
      lhs.map Prod.fst = rhs.map Prod.fst := by
  unfold isSameAccessPath
  induction lhs generalizing rhs with
  | nil => cases rhs <;> simp
  | cons a l ih =>
    cases rhs with
    | nil => simp
    | cons b r =>
      have ihr := ih r
      rw [Bool.and_eq_true, beq_iff_eq] at ihr
      simp only [List.length_cons, List.zip_cons_cons, List.all_cons,
        Bool.and_eq_true, beq_iff_eq, List.map_cons, List.cons.injEq]
      constructor
      · rintro ⟨hlen, hfst, hall⟩
        exact ⟨hfst, ihr.mp ⟨by omega, hall⟩⟩
      · rintro ⟨hfst, hmap⟩
        obtain ⟨hlen, hall⟩ := ihr.mpr hmap
        exact ⟨by omega, hfst, hall⟩

/-- C4: `isSameAccessPath` is true exactly when the identifier
sequences of the two paths are identical — source positions never
matter, and paths of different identifier sequences (in particular of
different lengths) never compare equal; correspondingly the
`DenseMapInfo` equality on `ImportedModule` holds exactly when the
target modules are identical and the access-path identifier sequences
agree. -/
theorem claim_C4_access_path_equality (lhs rhs : AccessPathTy)
    (m1 m2 : Nat) :
    (isSameAccessPath lhs rhs = true ↔
      lhs.map Prod.fst = rhs.map Prod.fst) ∧
    (importedModuleIsEqual (lhs, m1) (rhs, m2) = true ↔
      m1 = m2 ∧ lhs.map Prod.fst = rhs.map Prod.fst) := by
  refine ⟨isSameAccessPath_iff lhs rhs, ?_⟩
  unfold importedModuleIsEqual
  rw [Bool.and_eq_true, beq_iff_eq, isSameAccessPath_iff]

/-- C6: the default option preset for qualified lookup is exactly
`NL_VisitSupertypes | NL_RemoveNonVisible | NL_RemoveOverridden`, the
unqualified preset is the same set, the constructor preset is exactly
`NL_RemoveNonVisible`, and no default preset includes
`NL_ProtocolMembers` or `NL_DynamicLookup`. -/
theorem claim_C6_default_lookup_presets :
    NL_QualifiedDefault =
      (NL_VisitSupertypes ||| NL_RemoveNonVisible ||| NL_RemoveOverridden) ∧
    NL_UnqualifiedDefault = NL_QualifiedDefault ∧
    NL_Constructor = NL_RemoveNonVisible ∧
    NL_QualifiedDefault &&& NL_VisitSupertypes ≠ 0 ∧
    NL_QualifiedDefault &&& NL_RemoveNonVisible ≠ 0 ∧
    NL_QualifiedDefault &&& NL_RemoveOverridden ≠ 0 ∧
    NL_QualifiedDefault &&& NL_ProtocolMembers = 0 ∧
    NL_QualifiedDefault &&& NL_DynamicLookup = 0 ∧
    NL_UnqualifiedDefault &&& NL_ProtocolMembers = 0 ∧
    NL_UnqualifiedDefault &&& NL_DynamicLookup = 0 ∧
    NL_Constructor = NL_RemoveNonVisible ∧
    NL_Constructor &&& NL_VisitSupertypes = 0 ∧
    NL_Constructor &&& NL_RemoveOverridden = 0 ∧
    NL_Constructor &&& NL_ProtocolMembers = 0 ∧
    NL_Constructor &&& NL_DynamicLookup = 0 := by
  decide

/-- C1 fails as stated, at concrete inputs for each of its three
setters: a second `setImports` succeeds and replaces the first value;
a second `setLinkLibraries` succeeds when the first set stored the
empty list (the guard only checks emptiness); and a second
`setImportBufferID` succeeds when the first buffer id was 0xFFFFFFFF,
whose narrowing store wraps to the unset sentinel -1. -/
theorem claim_C1_counterexample :
    ((mkTranslationUnit "main" (some 0) TUKind.Library).map
        (fun tu => (TranslationUnit.setImports
          (TranslationUnit.setImports tu [(([("A", 0)], 1), true)])
          [(([("B", 7)], 2), false)]).Imports)
      = some [(([("B", 7)], 2), false)] ∧
      ([(([("B", 7)], 2), false)] : List (ImportedModule × Bool)) ≠
        [(([("A", 0)], 1), true)]) ∧
    ((tuEx.setLinkLibraries []).bind
        (fun tu1 => tu1.setLinkLibraries [5]) =
      some { tuEx with LinkLibraries := [5] }) ∧
    ((tuEx.setImportBufferID 4294967295).map
        (fun tu1 => tu1.ImportBufferID) = some (-1) ∧
      (tuEx.setImportBufferID 4294967295).bind
        (fun tu1 => tu1.setImportBufferID 9) = some tuBufEx) := by
  exact ⟨⟨rfl, by decide⟩, by decide, by decide, by decide⟩

/-- The narrowing store of a 32-bit unsigned buffer id hits the unset
sentinel -1 exactly when the id is congruent to 0xFFFFFFFF modulo
`2 ^ 32`. -/
theorem int32OfUInt32_eq_neg_one_iff (n : Nat) :
    int32OfUInt32 n = -1 ↔ n % 2 ^ 32 = 2 ^ 32 - 1 := by
  unfold int32OfUInt32
  split <;> omega

/-- C1 (amended): `setLinkLibraries` fails on a second set provided
the first set stored a non-empty list, and `setImportBufferID` fails
on a second set provided the first buffer id was not congruent to
0xFFFFFFFF modulo `2 ^ 32` (such an id wraps to the unset sentinel -1
in the narrowing store, re-arming the guard); in both cases the first
stored value is retained.  `setImports`, by contrast, has no guard: a
second set succeeds and overwrites the first value. -/
theorem claim_C1_write_once_fields
    (tu tu1 tu2 : TranslationUnit) (libs1 libs2 : List Nat)
    (b1 b2 : Nat) (im1 im2 : List (ImportedModule × Bool))
    (hl1 : libs1 ≠ [])
    (hb1 : b1 % 2 ^ 32 ≠ 2 ^ 32 - 1)
    (hset : tu.setLinkLibraries libs1 = some tu1)
    (hbuf : tu.setImportBufferID b1 = some tu2) :
    (tu1.setLinkLibraries libs2 = none ∧ tu1.LinkLibraries = libs1) ∧
    (tu2.setImportBufferID b2 = none ∧
      tu2.ImportBufferID = int32OfUInt32 b1) ∧
    ((tu.setImports im1).setImports im2).Imports = im2 := by
  unfold TranslationUnit.setLinkLibraries at hset
  unfold TranslationUnit.setImportBufferID at hbuf
  by_cases h : tu.LinkLibraries = []
  · rw [if_pos h] at hset
    by_cases h2 : tu.ImportBufferID = -1
    · rw [if_pos h2] at hbuf
      injection hset with hset
      injection hbuf with hbuf
      subst hset
      subst hbuf
      refine ⟨⟨?_, rfl⟩, ⟨?_, rfl⟩, rfl⟩
      · simp [TranslationUnit.setLinkLibraries, hl1]
      · have hne : int32OfUInt32 b1 ≠ -1 := fun hcontra =>
          hb1 ((int32OfUInt32_eq_neg_one_iff b1).mp hcontra)
        simp [TranslationUnit.setImportBufferID, hne]
    · rw [if_neg h2] at hbuf
      cases hbuf
  · rw [if_neg h] at hset
    cases hset

/-- Witness for C1 (amended) at a concrete translation unit, with a
first buffer id (9) that does not wrap to the sentinel. -/
theorem claim_C1_write_once_fields_witness :
    ([4] : List Nat) ≠ [] ∧
    (9 : Nat) % 2 ^ 32 ≠ 2 ^ 32 - 1 ∧
    tuEx.setLinkLibraries [4] = some tuLibsEx ∧
    tuEx.setImportBufferID 9 = some tuBufEx ∧
    ((tuLibsEx.setLinkLibraries [5] = none ∧
        tuLibsEx.LinkLibraries = [4]) ∧
      (tuBufEx.setImportBufferID 2 = none ∧
        tuBufEx.ImportBufferID = int32OfUInt32 9) ∧
      ((tuEx.setImports [(([("A", 0)], 1), true)]).setImports
          []).Imports = []) :=
  ⟨by decide, by decide, by rfl, by rfl,
    claim_C1_write_once_fields tuEx tuLibsEx tuBufEx [4] [5] 9 2
      [(([("A", 0)], 1), true)] [] (by decide) (by decide) rfl rfl⟩

/-- C2: a freshly constructed translation unit is at stage `Parsing`,
a builtin module is constructed already at `TypeChecked`, and a loaded
module is constructed at `TypeChecked` with the module loader that
produced it stored as its owner. -/
theorem claim_C2_construction_stages
    (nmT nmB nmL dbg : String) (c cL owner : Nat) (k : TUKind)
    (mk : ModuleKind) (tu : TranslationUnit) (bm : Module)
    (lm : LoadedModule)
    (htu : mkTranslationUnit nmT (some c) k = some tu)
    (hbm : mkBuiltinModule nmB = some bm)
    (hlm : mkLoadedModule mk nmL dbg (some cL) owner = some lm) :
    tu.toModule.stage = ASTStage.Parsing ∧
    bm.stage = ASTStage.TypeChecked ∧
    lm.toModule.stage = ASTStage.TypeChecked ∧
    lm.getOwner = some owner := by
  unfold mkTranslationUnit mkModule at htu
  unfold mkBuiltinModule mkModule at hbm
  unfold mkLoadedModule mkModule at hlm
  simp at htu hbm hlm
  subst htu
  subst hbm
  subst hlm
  exact ⟨rfl, rfl, rfl, rfl⟩

/-- Witness for C2 at concretely constructed modules of each variant. -/
theorem claim_C2_construction_stages_witness :
    mkTranslationUnit "M" (some 0) TUKind.Main = some tuEx ∧
    mkBuiltinModule "Builtin" = some bmEx ∧
    mkLoadedModule ModuleKind.SerializedModule "Ser" "dbg" (some 3) 7 =
      some lmEx ∧
    (tuEx.toModule.stage = ASTStage.Parsing ∧
      bmEx.stage = ASTStage.TypeChecked ∧
      lmEx.toModule.stage = ASTStage.TypeChecked ∧
      lmEx.getOwner = some 7) :=
  ⟨rfl, rfl, rfl,
    claim_C2_construction_stages "M" "Builtin" "Ser" "dbg" 0 3 7
      TUKind.Main ModuleKind.SerializedModule tuEx bmEx lmEx rfl rfl rfl⟩

/-- C3: `getImports` fails (assertion-style) on a translation unit
whose stage is still `Parsing` (i.e. not yet at least `Parsed`) unless
its kind is `SIL`; a `SIL` unit may read the imports at any stage, and
any unit at stage at least `Parsed` reads the stored imports. -/
theorem claim_C3_getImports_stage_guard (tu : TranslationUnit) :
    (tu.toModule.stage = ASTStage.Parsing → tu.tuKind ≠ TUKind.SIL →
      tu.getImports = none) ∧
    (tu.tuKind = TUKind.SIL → tu.getImports = some tu.Imports) ∧
    (ASTStage.Parsed.toNat ≤ tu.toModule.stage.toNat →
      tu.getImports = some tu.Imports) := by
  refine ⟨?_, ?_, ?_⟩
  · intro hst hk
    unfold TranslationUnit.getImports
    rw [if_neg]
    rw [hst]
    intro hor
    rcases hor with hle | hsil
    · simp [ASTStage.toNat] at hle
    · exact hk hsil
  · intro hk
    unfold TranslationUnit.getImports
    rw [if_pos (Or.inr hk)]
  · intro hle
    unfold TranslationUnit.getImports
    rw [if_pos (Or.inl hle)]

/-- Witness for C3: a freshly parsed `Main` unit cannot read imports,
while a `SIL` unit at the same stage can. -/
theorem claim_C3_getImports_stage_guard_witness :
    (tuEx.toModule.stage = ASTStage.Parsing ∧ tuEx.tuKind ≠ TUKind.SIL ∧
      tuEx.getImports = none) ∧
    (tuSILEx.tuKind = TUKind.SIL ∧ tuSILEx.getImports = some []) :=
  ⟨⟨rfl, by decide,
      (claim_C3_getImports_stage_guard tuEx).1 rfl (by decide)⟩,
    ⟨rfl, (claim_C3_getImports_stage_guard tuSILEx).2.1 rfl⟩⟩

/-- C10: module construction enforces that the component is non-null
unless the module is the builtin module; the builtin module is built
with a null component, so `getComponent` on it fails
(assertion-style); and any module constructed with a non-null
component returns exactly that component from `getComponent`. -/
theorem claim_C10_component_invariant
    (k kc : ModuleKind) (nm nmc nmB : String) (c : Nat) (co : Option Nat)
    (m mc bm : Module)
    (hm : mkModule k nm co = some m)
    (hc : mkModule kc nmc (some c) = some mc)
    (hb : mkBuiltinModule nmB = some bm) :
    (co ≠ none ∨ k = ModuleKind.BuiltinModule) ∧
    bm.getComponent = none ∧
    mc.getComponent = some c := by
  refine ⟨?_, ?_, ?_⟩
  · unfold mkModule at hm
    by_cases hcond : co = none ∧ k ≠ ModuleKind.BuiltinModule
    · rw [if_pos hcond] at hm
      cases hm
    · push_neg at hcond
      by_cases hco : co = none
      · exact Or.inr (hcond hco)
      · exact Or.inl hco
  · unfold mkBuiltinModule mkModule at hb
    simp at hb
    subst hb
    rfl
  · unfold mkModule at hc
    simp at hc
    subst hc
    rfl

/-- Witness for C10 at a concretely constructed translation-unit
module and the builtin module. -/
theorem claim_C10_component_invariant_witness :
    mkModule ModuleKind.TranslationUnit "M" (some 0) =
      some tuEx.toModule ∧
    mkBuiltinModule "Builtin" = some bmEx ∧
    ((some 0 ≠ (none : Option Nat) ∨
        ModuleKind.TranslationUnit = ModuleKind.BuiltinModule) ∧
      bmEx.getComponent = none ∧
      tuEx.toModule.getComponent = some 0) :=
  ⟨rfl, rfl,
    claim_C10_component_invariant ModuleKind.TranslationUnit
      ModuleKind.TranslationUnit "M" "M" "Builtin" 0 (some 0)
      tuEx.toModule tuEx.toModule bmEx rfl rfl rfl⟩

/-- C9: conformance lookup is tri-state — `DoesNotConform` exactly
when no explicit conformance is declared; `UncheckedConforms` with the
in-progress conformance when the declared conformance is still being
checked, or with a null reference when only a declaration of intent
exists; and `Conforms` for a checked conformance, always carrying a
non-null conformance reference. -/
theorem claim_C9_conformance_tristate (entries : List ConfEntry)
    (t p : Nat) :
    ((lookupConformance entries t p).1 = ConformanceKind.DoesNotConform ↔
      entries.find? (fun e => e.ty == t && e.proto == p) = none) ∧
    (∀ e c, entries.find? (fun e => e.ty == t && e.proto == p) = some e →
      e.state = ConfState.inProgress c →
      lookupConformance entries t p =
        (ConformanceKind.UncheckedConforms, some c)) ∧
    (∀ e, entries.find? (fun e => e.ty == t && e.proto == p) = some e →
      e.state = ConfState.intentOnly →
      lookupConformance entries t p =
        (ConformanceKind.UncheckedConforms, none)) ∧
    (∀ e c, entries.find? (fun e => e.ty == t && e.proto == p) = some e →
      e.state = ConfState.checked c →
      lookupConformance entries t p = (ConformanceKind.Conforms, some c)) ∧
    ((lookupConformance entries t p).1 = ConformanceKind.Conforms →
      (lookupConformance entries t p).2 ≠ none) := by
  unfold lookupConformance
  cases hfind : entries.find? (fun e => e.ty == t && e.proto == p) with
  | none => simp
  | some e => cases hst : e.state <;> simp_all

/-- Witness for C9 on a concrete conformance table: type 1 has a
checked conformance to protocol 9, type 2 an in-progress one, and
type 3 a bare declaration of intent. -/
theorem claim_C9_conformance_tristate_witness :
    (confEx.find? (fun e => e.ty == 2 && e.proto == 9) =
      some ⟨2, 9, ConfState.inProgress 12⟩) ∧
    lookupConformance confEx 2 9 =
      (ConformanceKind.UncheckedConforms, some 12) :=
  ⟨by decide,
    (claim_C9_conformance_tristate confEx 2 9).2.1
      ⟨2, 9, ConfState.inProgress 12⟩ 12 (by decide) rfl⟩

/-- C8: with `NL_RemoveOverridden` set, qualified lookup on a type
with one visible directly-declared member named `m` and one visible
overriding-equivalent supertype member named `m` returns exactly the
direct (most-derived) member, and reports that something was found. -/
theorem claim_C8_remove_overridden
    (w : TypeWorld) (t : Nat) (nm : String) (opts : Nat) (d d2 : QDecl)
    (hopt : opts &&& NL_RemoveOverridden ≠ 0)
    (hdyn : w.isDynamicLookupExistential t = false)
    (hdir : (w.members t).filter (fun x => x.name == nm) = [d])
    (hsup : ((w.superChain t).flatMap fun ty =>
        (w.members ty).filter fun x => x.name == nm) = [d2])
    (hpro : (w.protocolMembers t).filter (fun x => x.name == nm) = [])
    (hsig : sameSignature d d2 = true)
    (hvis : d.visible = true) (hvis2 : d2.visible = true) :
    lookupQualified w t nm opts = (true, [d]) := by
  by_cases hvs : opts &&& NL_VisitSupertypes ≠ 0 <;>
    by_cases hrv : opts &&& NL_RemoveNonVisible ≠ 0 <;>
    by_cases hpm : opts &&& NL_ProtocolMembers ≠ 0 <;>
    simp [lookupQualified, hdyn, hdir, hsup, hpro, hopt, hvs, hrv, hpm,
      removeOverridden, hvis, hvis2, hsig]

/-- Witness for C8: a concrete world where type 0 directly declares a
member `m` overriding an identical-signature member `m` of its
supertype 1; qualified lookup with the default option set returns only
the direct member. -/
theorem claim_C8_remove_overridden_witness :
    (NL_QualifiedDefault &&& NL_RemoveOverridden ≠ 0) ∧
    lookupQualified qwEx 0 "m" NL_QualifiedDefault =
      (true, [⟨"m", "()", true, 100⟩]) :=
  ⟨by decide,
    claim_C8_remove_overridden qwEx 0 "m" NL_QualifiedDefault
      ⟨"m", "()", true, 100⟩ ⟨"m", "()", true, 200⟩
      (by decide) rfl (by decide) (by decide) (by decide) (by decide)
      rfl rfl⟩

/-- Marking one more module as visited strictly shrinks the list of
unvisited modules of the universe, provided that module is in the
universe and was not visited yet: the termination measure of the
import-graph walker. -/
theorem length_filter_cons_visited_lt (l : List Nat) (m : Nat)
    (visited : List Nat) (hin : m ∈ l) (hnv : m ∉ visited) :
    (l.filter (fun x => decide (x ∉ m :: visited))).length <
      (l.filter (fun x => decide (x ∉ visited))).length := by
  induction l with
  | nil => cases hin
  | cons a tl ih =>
    simp only [List.filter_cons]
    by_cases ham : a = m
    · subst ham
      have h1 : (decide (a ∉ a :: visited)) = false := by simp
      have h2 : (decide (a ∉ visited)) = true := by simpa using hnv
      rw [h1, h2]
      simp only [Bool.false_eq_true, if_false, if_true, List.length_cons]
      have hsub : List.Sublist (tl.filter (fun x => decide (x ∉ a :: visited)))
          (tl.filter (fun x => decide (x ∉ visited))) := by
        apply List.monotone_filter_right
        intro x hx
        simp only [decide_eq_true_eq, List.mem_cons, not_or] at *
        exact hx.2
      exact Nat.lt_succ_of_le hsub.length_le
    · have hin' : m ∈ tl := by
        rcases List.mem_cons.mp hin with hh | hh
        · exact absurd hh.symm ham
        · exact hh
      have hlt := ih hin'
      by_cases hav : a ∈ visited
      · have h1 : (decide (a ∉ m :: visited)) = false := by simp [hav]
        have h2 : (decide (a ∉ visited)) = false := by simp [hav]
        rw [h1, h2]
        simp only [Bool.false_eq_true, if_false]
        exact hlt
      · have h1 : (decide (a ∉ m :: visited)) = true := by simp [hav, ham]
        have h2 : (decide (a ∉ visited)) = true := by simp [hav]
        rw [h1, h2]
        simp only [if_true, List.length_cons]
        exact Nat.succ_lt_succ hlt

/-- The walker does nothing on an empty worklist. -/
theorem visitDFS_nil_eq (g : ImportGraph) (fn : ImportedModule → Bool)
    (visited : List Nat) : visitDFS g fn [] visited = (false, []) := by
  rw [visitDFS]

/-- The walker skips an import whose target was already visited (or is
outside the universe). -/
theorem visitDFS_skip_eq (g : ImportGraph) (fn : ImportedModule → Bool)
    (imp : ImportedModule) (rest : List ImportedModule)
    (visited : List Nat) (hcond : imp.2 ∈ visited ∨ imp.2 ∉ g.mods) :
    visitDFS g fn (imp :: rest) visited = visitDFS g fn rest visited := by
  rw [visitDFS, if_pos hcond]

/-- The walker visits a fresh import when the visitor continues: it
marks the target visited and pushes its re-export edges. -/
theorem visitDFS_visit_eq (g : ImportGraph) (fn : ImportedModule → Bool)
    (imp : ImportedModule) (rest : List ImportedModule)
    (visited : List Nat) (hcond : ¬(imp.2 ∈ visited ∨ imp.2 ∉ g.mods))
    (hfn : fn imp = true) :
    visitDFS g fn (imp :: rest) visited =
      ((visitDFS g fn (g.edges imp.2 ++ rest) (imp.2 :: visited)).1,
        imp :: (visitDFS g fn (g.edges imp.2 ++ rest)
          (imp.2 :: visited)).2) := by
  rw [visitDFS, if_neg hcond, if_pos hfn]

/-- The walker stops at once when the visitor aborts. -/
theorem visitDFS_stop_eq (g : ImportGraph) (fn : ImportedModule → Bool)
    (imp : ImportedModule) (rest : List ImportedModule)
    (visited : List Nat) (hcond : ¬(imp.2 ∈ visited ∨ imp.2 ∉ g.mods))
    (hfn : fn imp = false) :
    visitDFS g fn (imp :: rest) visited = (true, [imp]) := by
  rw [visitDFS, if_neg hcond]
  rw [if_neg]
  rw [hfn]
  simp

/-- Every import in the walker's trace has a target that was unvisited
at entry, and the trace's targets are pairwise distinct: the visitor
runs at most once per module identity. -/
theorem visitDFS_nodup (g : ImportGraph) (fn : ImportedModule → Bool)
    (pending : List ImportedModule) (visited : List Nat) :
    (∀ x ∈ (visitDFS g fn pending visited).2, x.2 ∉ visited) ∧
    ((visitDFS g fn pending visited).2.map Prod.snd).Nodup := by
  induction pending, visited using visitDFS.induct g fn with
  | case1 visited => simp [visitDFS_nil_eq]
  | case2 imp rest visited hcond ih =>
    rw [visitDFS_skip_eq g fn imp rest visited hcond]
    exact ih
  | case3 imp rest visited hcond hfn ih =>
    rw [visitDFS_visit_eq g fn imp rest visited hcond hfn]
    push_neg at hcond
    obtain ⟨ihfresh, ihnodup⟩ := ih
    constructor
    · intro x hx
      rcases List.mem_cons.mp hx with rfl | hx'
      · exact hcond.1
      · have := ihfresh x hx'
        simp only [List.mem_cons, not_or] at this
        exact this.2
    · simp only [List.map_cons, List.nodup_cons]
      refine ⟨?_, ihnodup⟩
      intro hmem
      rcases List.mem_map.mp hmem with ⟨x, hx, hx2⟩
      have := ihfresh x hx
      simp only [List.mem_cons, not_or] at this
      exact this.1 hx2
  | case4 imp rest visited hcond hfn =>
    rw [visitDFS_stop_eq g fn imp rest visited hcond
      (Bool.not_eq_true _ ▸ hfn)]
    push_neg at hcond
    constructor
    · intro x hx
      rcases List.mem_cons.mp hx with rfl | hx'
      · exact hcond.1
      · cases hx'
    · simp

/-- Every import in the walker's trace except possibly the last one
got a continue signal from the visitor: nothing is visited after an
abort. -/
theorem visitDFS_abort_immediate (g : ImportGraph)
    (fn : ImportedModule → Bool) (pending : List ImportedModule)
    (visited : List Nat) :
    ∀ x ∈ (visitDFS g fn pending visited).2.dropLast, fn x = true := by
  induction pending, visited using visitDFS.induct g fn with
  | case1 visited => simp [visitDFS_nil_eq]
  | case2 imp rest visited hcond ih =>
    rw [visitDFS_skip_eq g fn imp rest visited hcond]
    exact ih
  | case3 imp rest visited hcond hfn ih =>
    rw [visitDFS_visit_eq g fn imp rest visited hcond hfn]
    intro x hx
    rcases hr : (visitDFS g fn (g.edges imp.2 ++ rest) (imp.2 :: visited)).2
      with _ | ⟨y, ys⟩
    · rw [hr] at hx
      simp at hx
    · rw [hr] at hx
      rw [List.dropLast_cons₂] at hx
      rcases List.mem_cons.mp hx with rfl | hx'
      · exact hfn
      · have := ih x
        rw [hr] at this
        exact this hx'
  | case4 imp rest visited hcond hfn =>
    rw [visitDFS_stop_eq g fn imp rest visited hcond
      (Bool.not_eq_true _ ▸ hfn)]
    simp

/-- The walker's trace is no longer than the number of modules of the
universe not yet visited: traversal terminates on any graph, cyclic
re-export graphs included. -/
theorem visitDFS_length_le (g : ImportGraph) (fn : ImportedModule → Bool)
    (pending : List ImportedModule) (visited : List Nat) :
    (visitDFS g fn pending visited).2.length ≤
      (g.mods.filter (fun m => decide (m ∉ visited))).length := by
  induction pending, visited using visitDFS.induct g fn with
  | case1 visited => simp [visitDFS_nil_eq]
  | case2 imp rest visited hcond ih =>
    rw [visitDFS_skip_eq g fn imp rest visited hcond]
    exact ih
  | case3 imp rest visited hcond hfn ih =>
    rw [visitDFS_visit_eq g fn imp rest visited hcond hfn]
    push_neg at hcond
    simp only [List.length_cons]
    have hlt := length_filter_cons_visited_lt g.mods imp.2 visited
      hcond.2 hcond.1
    omega
  | case4 imp rest visited hcond hfn =>
    rw [visitDFS_stop_eq g fn imp rest visited hcond
      (Bool.not_eq_true _ ▸ hfn)]
    push_neg at hcond
    simp only [List.length_cons, List.length_nil]
    have hmem : imp.2 ∈ g.mods.filter (fun m => decide (m ∉ visited)) := by
      simp [List.mem_filter, hcond.2, hcond.1]
    have := List.length_pos_of_mem hmem
    omega

/-- C7: on any re-export graph, cyclic ones included, the walker
starting from a module of the universe visits the starting module
first under the supplied top-level access path, invokes the visitor at
most once per distinct module identity regardless of access paths,
invokes it only on imports up to and including the first abort, and
its trace is bounded by the number of modules, so traversal
terminates. -/
theorem claim_C7_forAllVisibleModules (g : ImportGraph) (start : Nat)
    (p : AccessPathTy) (fn : ImportedModule → Bool)
    (hstart : start ∈ g.mods) :
    ((forAllVisibleModules g start (some p) fn).2.head? = some (p, start)) ∧
    (∀ tlap, ((forAllVisibleModules g start tlap fn).2.map Prod.snd).Nodup) ∧
    (∀ tlap, ∀ x ∈ (forAllVisibleModules g start tlap fn).2.dropLast,
      fn x = true) ∧
    (∀ tlap, (forAllVisibleModules g start tlap fn).2.length ≤
      g.mods.length) := by
  have hfilter : (g.mods.filter (fun m => decide (m ∉ ([] : List Nat)))).length
      = g.mods.length := by
    simp
  refine ⟨?_, ?_, ?_, ?_⟩
  · rw [forAllVisibleModules]
    have hcond : ¬((p, start).2 ∈ ([] : List Nat) ∨ (p, start).2 ∉ g.mods) := by
      simp [hstart]
    by_cases hfn : fn (p, start) = true
    · rw [visitDFS_visit_eq g fn (p, start) [] [] hcond hfn]
      rfl
    · rw [visitDFS_stop_eq g fn (p, start) [] [] hcond
        (Bool.not_eq_true _ ▸ hfn)]
      rfl
  · intro tlap
    cases tlap with
    | none => exact (visitDFS_nodup g fn (g.edges start) []).2
    | some q => exact (visitDFS_nodup g fn [(q, start)] []).2
  · intro tlap
    cases tlap with
    | none => exact visitDFS_abort_immediate g fn (g.edges start) []
    | some q => exact visitDFS_abort_immediate g fn [(q, start)] []
  · intro tlap
    cases tlap with
    | none => exact hfilter ▸ visitDFS_length_le g fn (g.edges start) []
    | some q => exact hfilter ▸ visitDFS_length_le g fn [(q, start)] []

/-- Witness for C7 on the concrete two-module cycle `gEx`: the walk
from module 0 visits module 0 first under the top-level path, then
module 1, each exactly once, and terminates with trace `[0, 1]`. -/
theorem claim_C7_forAllVisibleModules_witness :
    (0 ∈ gEx.mods) ∧
    ((forAllVisibleModules gEx 0 (some [("Top", 0)]) (fun _ => true)).2.head? =
      some ([("Top", 0)], 0)) ∧
    ((forAllVisibleModules gEx 0 (some [("Top", 0)]) (fun _ => true)).2.map
      Prod.snd).Nodup ∧
    ((forAllVisibleModules gEx 0 (some [("Top", 0)]) (fun _ => true)).2.map
      Prod.snd = [0, 1]) := by
  have h := claim_C7_forAllVisibleModules gEx 0 [("Top", 0)]
    (fun _ => true) (by decide)
  refine ⟨by decide, h.1, h.2.1 (some [("Top", 0)]), ?_⟩
  rw [forAllVisibleModules]
  rw [visitDFS_visit_eq gEx _ ([("Top", 0)], 0) [] [] (by decide) rfl]
  have e0 : gEx.edges 0 = [([("B", 0)], 1)] := rfl
  rw [e0]
  simp only [List.append_nil]
  rw [visitDFS_visit_eq gEx _ ([("B", 0)], 1) [] [0] (by decide) rfl]
  have e1 : gEx.edges 1 = [([("A", 0)], 0)] := rfl
  rw [e1]
  simp only [List.append_nil]
  rw [visitDFS_skip_eq gEx _ ([("A", 0)], 0) [] [1, 0] (by decide)]
  rw [visitDFS_nil_eq]
  rfl

/-- Operator lookup over the candidates gathered from all reachable
modules is tri-state: `some none` when no candidate exists, `some
(some d)` when every candidate is the single declaration `d`, and
`none` (unresolvable) when two distinct candidate declarations are
reachable. -/
theorem lookupOperatorAux_tristate (g : ImportGraph)
    (table : Nat → String → Option Nat) (m : Nat) (name : String) :
    (opCandidates g table m name = [] →
      lookupOperatorAux g table m name = some none) ∧
    (∀ d, d ∈ opCandidates g table m name →
      (∀ x ∈ opCandidates g table m name, x = d) →
      lookupOperatorAux g table m name = some (some d)) ∧
    (∀ d1 d2, d1 ∈ opCandidates g table m name →
      d2 ∈ opCandidates g table m name → d1 ≠ d2 →
      lookupOperatorAux g table m name = none) := by
  unfold lookupOperatorAux
  generalize opCandidates g table m name = c
  refine ⟨?_, ?_, ?_⟩
  · intro h
    subst h
    rfl
  · intro d hd hall
    have hnd := c.nodup_dedup
    have hdd : c.dedup = [d] := by
      cases hdd : c.dedup with
      | nil =>
        exfalso
        have hmem : d ∈ c.dedup := List.mem_dedup.mpr hd
        rw [hdd] at hmem
        cases hmem
      | cons x xs =>
        have hx : x ∈ c := List.mem_dedup.mp (hdd ▸ List.mem_cons_self x xs)
        have hxd : x = d := hall x hx
        cases xs with
        | nil => rw [hxd]
        | cons y ys =>
          exfalso
          have hy : y ∈ c :=
            List.mem_dedup.mp (hdd ▸ List.mem_cons_of_mem x
              (List.mem_cons_self y ys))
          have hyd : y = d := hall y hy
          rw [hdd] at hnd
          have hnc := List.nodup_cons.mp hnd
          apply hnc.1
          rw [hxd, hyd]
          exact List.mem_cons_self d ys
    rw [hdd]
  · intro d1 d2 h1 h2 hne
    cases hdd : c.dedup with
    | nil =>
      exfalso
      have hmem : d1 ∈ c.dedup := List.mem_dedup.mpr h1
      rw [hdd] at hmem
      cases hmem
    | cons x xs =>
      cases xs with
      | nil =>
        exfalso
        have m1 : d1 ∈ c.dedup := List.mem_dedup.mpr h1
        have m2 : d2 ∈ c.dedup := List.mem_dedup.mpr h2
        rw [hdd] at m1 m2
        simp at m1 m2
        exact hne (m1.trans m2.symm)
      | cons y ys =>
        rfl

/-- C5: each of the three fixity lookups is tri-state over the
candidates gathered from the module and every module reachable
through the import-graph walker — `some none` ("no operator decl")
when no declaration is found anywhere, `some (some d)` when `d` is
the unique reachable declaration, and `none` ("Nothing") when two
distinct declarations are reachable; the not-found and ambiguous
outcomes are distinct values of the result type. -/
theorem claim_C5_operator_lookup_tristate (w : OpWorld) (m : Nat)
    (name : String) :
    ((opCandidates w.graph w.infixOperators m name = [] →
        lookupInfixOperator w m name = some none) ∧
      (∀ d, d ∈ opCandidates w.graph w.infixOperators m name →
        (∀ x ∈ opCandidates w.graph w.infixOperators m name, x = d) →
        lookupInfixOperator w m name = some (some d)) ∧
      (∀ d1 d2, d1 ∈ opCandidates w.graph w.infixOperators m name →
        d2 ∈ opCandidates w.graph w.infixOperators m name → d1 ≠ d2 →
        lookupInfixOperator w m name = none)) ∧
    ((opCandidates w.graph w.prefixOperators m name = [] →
        lookupPrefixOperator w m name = some none) ∧
      (∀ d, d ∈ opCandidates w.graph w.prefixOperators m name →
        (∀ x ∈ opCandidates w.graph w.prefixOperators m name, x = d) →
        lookupPrefixOperator w m name = some (some d)) ∧
      (∀ d1 d2, d1 ∈ opCandidates w.graph w.prefixOperators m name →
        d2 ∈ opCandidates w.graph w.prefixOperators m name → d1 ≠ d2 →
        lookupPrefixOperator w m name = none)) ∧
    ((opCandidates w.graph w.postfixOperators m name = [] →
        lookupPostfixOperator w m name = some none) ∧
      (∀ d, d ∈ opCandidates w.graph w.postfixOperators m name →
        (∀ x ∈ opCandidates w.graph w.postfixOperators m name, x = d) →
        lookupPostfixOperator w m name = some (some d)) ∧
      (∀ d1 d2, d1 ∈ opCandidates w.graph w.postfixOperators m name →
        d2 ∈ opCandidates w.graph w.postfixOperators m name → d1 ≠ d2 →
        lookupPostfixOperator w m name = none)) ∧
    (some (none : Option Nat) ≠ (none : Option (Option Nat))) :=
  ⟨lookupOperatorAux_tristate w.graph w.infixOperators m name,
    lookupOperatorAux_tristate w.graph w.prefixOperators m name,
    lookupOperatorAux_tristate w.graph w.postfixOperators m name,
    by simp⟩

/-- Witness for C5 on the concrete world `owEx`: modules 0 and 1,
both re-exported into module 2, declare distinct infix operators named
`+`, so infix lookup from module 2 is ambiguous (`none`), while prefix
lookup, with no candidates anywhere, reports not-found (`some none`). -/
theorem claim_C5_operator_lookup_tristate_witness :
    opCandidates owEx.graph owEx.infixOperators 2 "+" = [10, 20] ∧
    lookupInfixOperator owEx 2 "+" = none ∧
    opCandidates owEx.graph owEx.prefixOperators 2 "+" = [] ∧
    lookupPrefixOperator owEx 2 "+" = some none := by
  have hreach : reachableModules owEx.graph 2 = [2, 0, 1] := by
    rw [reachableModules, forAllVisibleModules]
    rw [visitDFS_visit_eq owEx.graph _ ([], 2) [] [] (by decide) rfl]
    have e2 : owEx.graph.edges 2 = [([("A", 0)], 0), ([("B", 0)], 1)] := rfl
    rw [e2]
    simp only [List.append_nil]
    rw [visitDFS_visit_eq owEx.graph _ ([("A", 0)], 0) [([("B", 0)], 1)]
      [2] (by decide) rfl]
    have e0 : owEx.graph.edges 0 = [] := rfl
    rw [e0]
    simp only [List.nil_append]
    rw [visitDFS_visit_eq owEx.graph _ ([("B", 0)], 1) [] [0, 2]
      (by decide) rfl]
    have e1 : owEx.graph.edges 1 = [] := rfl
    rw [e1]
    simp only [List.nil_append, List.append_nil]
    rw [visitDFS_nil_eq]
    rfl
  have hc : opCandidates owEx.graph owEx.infixOperators 2 "+" = [10, 20] := by
    rw [opCandidates, hreach]
    rfl
  have hp : opCandidates owEx.graph owEx.prefixOperators 2 "+" = [] := by
    rw [opCandidates, hreach]
    rfl
  have h := claim_C5_operator_lookup_tristate owEx 2 "+"
  refine ⟨hc, ?_, hp, ?_⟩
  · exact h.1.2.2 10 20 (by rw [hc]; decide) (by rw [hc]; decide)
      (by decide)
  · exact h.2.1.1 hp

end SwiftModule
